import Mathlib

/-
Verification of the switchable heterogeneous processor abstraction
(src/configs/martian/switchable_hetproc.py).

Shallow embedding notes:
 - A python `BaseCPUCore` handle is modelled as a `Core` value.  Python compares
   such objects by identity (`==` falls back to `is` for them, and `in` /
   list `==` use element-wise `==`), so each distinct python object is a
   distinct `Core` value; the `cid` field encodes the object identity.
 - `core.get_simobject()` is modelled by the `simObjId` field; the simobject's
   `descendants()` (its owned sub-object subtree) is the `descIds` field.
 - `obj.eventq_index = v` attribute writes are modelled by prepending to an
   association list; `eventqLookup` returns the most recent write, defaulting
   to 0, the substrate's default event queue (gem5's Param default).
 - `core.set_switched_out(b)` writes are modelled the same way in the
   `switchedOut` association list keyed by the core handle.
 - Raising `AssertionError` (or any exception before mutation) is modelled by
   `Except.error`; `m5.switchCpus` is the external substrate's atomic swap and
   is assumed to succeed (the spec's "no substrate failure" assumption); it is
   not part of this subsystem and mutates none of the modelled fields.
 - Storing `self._board` during incorporation is modelled by the
   `incorporated` flag (the code only ever tests `hasattr(self, "_board")`).
-/

namespace HetProc

/-- CPU model kinds, from gem5's CPUTypes as used by SimpleCore. -/
inductive CPUType where
  | kvm
  | atomic
  | timing
  | o3
  | minor
deriving DecidableEq, Repr

/-- Whether a SimpleCore built from this CPU type is a KVM (host-accelerated)
core (`core.is_kvm_core()`). -/
def CPUType.isKvmType : CPUType → Bool
  | .kvm => true
  | _ => false

/-- A core handle (python `BaseCPUCore`).  `cid` is the python object identity,
`slotId` the `core_id`, `isa` the value of `get_isa()`, `isKvm` the value of
`is_kvm_core()`, `simObjId` the identity of `get_simobject()`, and `descIds`
the identities of the simobject's owned descendants. -/
structure Core where
  cid : Nat
  slotId : Nat
  isa : String
  isKvm : Bool
  simObjId : Nat
  descIds : List Nat
deriving DecidableEq, Repr

instance : Inhabited Core :=
  ⟨{ cid := 0, slotId := 0, isa := "", isKvm := false, simObjId := 0, descIds := [] }⟩

/-- First-match lookup in an ordered string-keyed association list; models
python dict indexing / `key in dict.keys()` (python dict keys are unique, so
first-match agrees with dict semantics). -/
def lookupC {α : Type} : List (String × α) → String → Option α
  | [], _ => none
  | (k, v) :: rest, key => if k = key then some v else lookupC rest key

/-- All cores of the processor in iteration order; models the
`_all_cores` generator (dict values in insertion order, each list in order). -/
def allCoresList (sw : List (String × List Core)) : List Core :=
  (sw.map Prod.snd).flatten

/-- Most recent `eventq_index` write to object `x`, defaulting to 0 (the
substrate's default global event queue). -/
def eventqLookup (tbl : List (Nat × Nat)) (x : Nat) : Nat :=
  match tbl.find? (fun p => decide (p.1 = x)) with
  | some p => p.2
  | none => 0

/-- Most recent `set_switched_out` write to core `c` (none if never set). -/
def lookupFlag (l : List (Core × Bool)) (c : Core) : Option Bool :=
  match l.find? (fun p => decide (p.1 = c)) with
  | some p => some p.2
  | none => none

/-- Inner loop of the construction flag pass:
`for core in core_list: core.set_switched_out(core not in self._current_cores)`. -/
def setFlagsList (cur : List Core) : List Core → List (Core × Bool) → List (Core × Bool)
  | [], acc => acc
  | c :: rest, acc => setFlagsList cur rest ((c, decide (¬ c ∈ cur)) :: acc)

/-- Outer loop of the construction flag pass:
`for name, core_list in self._switchable_cores.items(): ...`. -/
def setFlags (cur : List Core) : List (String × List Core) → List (Core × Bool) → List (Core × Bool)
  | [], acc => acc
  | p :: rest, acc => setFlags cur rest (setFlagsList cur p.2 acc)

/-- State of a `SwitchableHetProcessor` instance. -/
structure ProcState where
  switchableCores : List (String × List Core)
  currentCores : List Core
  switchedOut : List (Core × Bool)
  prepareKvm : Bool
  incorporated : Bool
  eventq : List (Nat × Nat)
deriving DecidableEq, Repr

instance : Inhabited ProcState :=
  ⟨{ switchableCores := [], currentCores := [], switchedOut := [],
     prepareKvm := false, incorporated := false, eventq := [] }⟩

/-- `SwitchableHetProcessor.__init__(switchable_cores, starting_cores)`
(lines 59-92).  Checks the starting key, sets `_current_cores`, asserts a
single ISA among the *current* cores, runs the `set_switched_out` loops, and
computes `_prepare_kvm`.  The `setattr` naming trick, the stored
`AbstractProcessor` isa and the `KvmVM` object are not modelled (no claim
depends on them). -/
def initProcessor (sw : List (String × List Core)) (starting : String) :
    Except String ProcState :=
  match lookupC sw starting with
  | none =>
      .error ("Key " ++ starting ++ " cannot be found in the switchable_processors dictionary.")
  | some cur =>
      if ((cur.map Core.isa).dedup).length = 1 then
        .ok { switchableCores := sw
              currentCores := cur
              switchedOut := setFlags cur sw []
              prepareKvm := (allCoresList sw).any (fun c => c.isKvm)
              incorporated := false
              eventq := [] }
      else
        .error "assert len(set of isa over current cores) == 1"

/-- Inner loop of incorporation:
`for obj in core.get_simobject().descendants(): obj.eventq_index = 0`. -/
def setAllZero : List Nat → List (Nat × Nat) → List (Nat × Nat)
  | [], tbl => tbl
  | d :: ds, tbl => setAllZero ds ((d, 0) :: tbl)

/-- Outer loop of incorporation:
`for i, core in enumerate(kvm_cores): <descendants to 0>;
core.get_simobject().eventq_index = i + 1`. -/
def assignKvm : Nat → List Core → List (Nat × Nat) → List (Nat × Nat)
  | _, [], tbl => tbl
  | i, c :: rest, tbl => assignKvm (i + 1) rest ((c.simObjId, i + 1) :: setAllZero c.descIds tbl)

/-- `SwitchableHetProcessor.incorporate_processor(board)` (lines 94-111):
stores the board (modelled by the `incorporated` flag) and, when any core is a
KVM core, gives each KVM core's simobject its own event queue index while
resetting its descendants to queue 0. -/
def incorporate_processor (s : ProcState) : ProcState :=
  let s1 := { s with incorporated := true }
  if s.prepareKvm then
    { s1 with
      eventq := assignKvm 0 ((allCoresList s.switchableCores).filter (fun c => c.isKvm)) s.eventq }
  else
    s1

/-- `SwitchableHetProcessor.get_num_cores` (lines 113-117). -/
def get_num_cores (s : ProcState) : Nat :=
  s.currentCores.length

/-- `SwitchableHetProcessor.get_cores` (lines 119-121). -/
def get_cores (s : ProcState) : List Core :=
  s.currentCores

/-- `SwitchableHetProcessor.switch_to_processor(switchable_core_key)`
(lines 127-164).  Checks in source order: incorporation, key membership, the
target not being the current core list, and equal lengths; then delegates to
`m5.switchCpus` (external, assumed successful) and updates `_current_cores`.
Note that the source sets no `switchedOut` flags here. -/
def switch_to_processor (s : ProcState) (key : String) : Except String ProcState :=
  if s.incorporated = false then
    .error "The processor has not been incorporated."
  else
    match lookupC s.switchableCores key with
    | none =>
        .error ("Key " ++ key ++ " is not a key in the switchable_processor dictionary.")
    | some toSwitch =>
        if toSwitch = s.currentCores then
          .error "Cannot swap current cores with the current cores"
        else if toSwitch.length ≠ s.currentCores.length then
          .error "The number of cores to swap in is not the same as the number already swapped in. This is not allowed."
        else
          .ok { s with currentCores := toSwitch }

/-- State of the two-configuration helpers `SimpleSwitchableHetProcessor` and
`CoreSwitchableHetProcessor`: the underlying processor plus the
`_current_is_start` flag. -/
structure ToggleState where
  base : ProcState
  currentIsStart : Bool
deriving DecidableEq, Repr

/-- The parameterless `switch()` of both two-configuration helpers
(lines 237-244 and 296-303): switch to the configuration that is not
currently active, then flip `_current_is_start`.  When `switch_to_processor`
raises, the flag is not flipped (the exception propagates first). -/
def toggleSwitch (p : ToggleState) : Except String ToggleState :=
  match switch_to_processor p.base (if p.currentIsStart then "switch" else "start") with
  | .error e => .error e
  | .ok s => .ok { base := s, currentIsStart := !p.currentIsStart }

/-- A `SimpleCore(cpu_type=ct, core_id=i, isa=isa)` freshly constructed with
object identity `ident` (distinct per constructed object). -/
def mkSimpleCore (ct : CPUType) (coreId : Nat) (isa : String) (ident : Nat) : Core :=
  { cid := ident, slotId := coreId, isa := isa, isKvm := ct.isKvmType,
    simObjId := ident, descIds := [] }

/-- Error message of the core-count check in
`SimpleSwitchableHetProcessor.__init__` (lines 186-190). -/
def countErrMsg : String :=
  "Number of cores must be a positive integer!"

/-- `SimpleSwitchableHetProcessor.__init__(core_types, isa)` (lines 172-219).
First the count check loop (before anything is constructed), then
`get_mem_mode(core_types[0][0])` (an IndexError on an empty list), then the
start/switch configurations are built and handed to the parent constructor
with `starting_cores="start"` and `_current_is_start = True`.  The parent here
is the stdlib `SwitchableProcessor`, whose constructor protocol is the one
embedded as `initProcessor` (the repo's `SwitchableHetProcessor` is a copy of
it).  The source references `SimpleCore` without importing it; the model
follows the evident intent of constructing fresh `SimpleCore` objects.
The mem-mode bookkeeping is not modelled (no claim depends on it). -/
def simpleInit (coreTypes : List (CPUType × CPUType × Int)) (isa : String) :
    Except String ToggleState :=
  if coreTypes.any (fun c => decide (c.2.2 ≤ 0)) then
    .error countErrMsg
  else
    match coreTypes with
    | [] => .error "IndexError: core_types[0]"
    | _ :: _ =>
        let total :=
          ((coreTypes.map (fun (ct : CPUType × CPUType × Int) => ct.2.2)).sum).toNat
        let startingConfig :=
          coreTypes.foldl
            (fun (l : List CPUType) (ct : CPUType × CPUType × Int) =>
              l ++ List.replicate ct.2.2.toNat ct.1) []
        let switchConfig :=
          coreTypes.foldl
            (fun (l : List CPUType) (ct : CPUType × CPUType × Int) =>
              l ++ List.replicate ct.2.2.toNat ct.2.1) []
        let startCores :=
          (List.range total).map
            (fun i => mkSimpleCore (startingConfig.getD i CPUType.timing) i isa i)
        let switchCores :=
          (List.range total).map
            (fun i => mkSimpleCore (switchConfig.getD i CPUType.timing) i isa (total + i))
        (initProcessor [("start", startCores), ("switch", switchCores)] "start").map
          (fun s => { base := s, currentIsStart := true })

/-! Concrete fixtures used by witnesses and counterexamples. -/

/-- Handle A0: slot 0 of configuration "base". -/
def coreA0 : Core :=
  { cid := 0, slotId := 0, isa := "X86", isKvm := false, simObjId := 10, descIds := [] }

/-- Handle B0: slot 0 of configuration "alt". -/
def coreB0 : Core :=
  { cid := 1, slotId := 0, isa := "X86", isKvm := false, simObjId := 11, descIds := [] }

/-- A two-configuration registry with one slot per configuration. -/
def exSw : List (String × List Core) :=
  [("base", [coreA0]), ("alt", [coreB0])]

/-- The processor constructed from `exSw` starting at "base". -/
def exBaseState : ProcState :=
  match initProcessor exSw "base" with
  | .ok s => s
  | .error _ => default

/-- The same processor after incorporation. -/
def exIncState : ProcState :=
  incorporate_processor exBaseState

/-- A KVM handle whose simobject 3 owns descendant sub-object 5. -/
def coreK1 : Core :=
  { cid := 2, slotId := 0, isa := "X86", isKvm := true, simObjId := 3, descIds := [5] }

/-- A non-accelerated handle with simobject 7. -/
def coreT1 : Core :=
  { cid := 3, slotId := 0, isa := "X86", isKvm := false, simObjId := 7, descIds := [] }

/-- A registry mixing one KVM and one non-KVM configuration. -/
def exKSw : List (String × List Core) :=
  [("start", [coreK1]), ("switch", [coreT1])]

/-- The mixed processor constructed starting at "start". -/
def exKBase : ProcState :=
  match initProcessor exKSw "start" with
  | .ok s => s
  | .error _ => default

/-- The mixed processor after incorporation. -/
def exKState : ProcState :=
  incorporate_processor exKBase

/-- Handle S0 for the toggle fixture. -/
def coreS0 : Core :=
  { cid := 4, slotId := 0, isa := "X86", isKvm := false, simObjId := 20, descIds := [] }

/-- Handle W0 for the toggle fixture. -/
def coreW0 : Core :=
  { cid := 5, slotId := 0, isa := "X86", isKvm := false, simObjId := 21, descIds := [] }

/-- The registry of a two-configuration toggling processor. -/
def exTSw : List (String × List Core) :=
  [("start", [coreS0]), ("switch", [coreW0])]

/-- Toggling processor, incorporated, on the "start" configuration. -/
def exTState : ToggleState :=
  { base :=
      incorporate_processor
        (match initProcessor exTSw "start" with
         | .ok s => s
         | .error _ => default),
    currentIsStart := true }

/-- The example processor after switching from "base" to "alt". -/
def exAltState : ProcState :=
  match switch_to_processor exIncState "alt" with
  | .ok s => s
  | .error _ => default

/-- Handle M1: the only slot of configuration "a". -/
def coreM1 : Core :=
  { cid := 6, slotId := 0, isa := "X86", isKvm := false, simObjId := 30, descIds := [] }

/-- Handle M2: slot 0 of configuration "b". -/
def coreM2 : Core :=
  { cid := 7, slotId := 0, isa := "X86", isKvm := false, simObjId := 31, descIds := [] }

/-- Handle M3: slot 1 of configuration "b", with a different ISA. -/
def coreM3 : Core :=
  { cid := 8, slotId := 1, isa := "ARM", isKvm := false, simObjId := 32, descIds := [] }

/-- A registry whose configuration sets disagree in slot count (1 vs 2) and
whose handles span two ISA values. -/
def badSw : List (String × List Core) :=
  [("a", [coreM1]), ("b", [coreM2, coreM3])]

/-- State after the first round-trip switch (base → alt). -/
def c7s1 : ProcState :=
  match switch_to_processor exIncState "alt" with
  | .ok s => s
  | .error _ => default

/-- State after the second round-trip switch (alt → base). -/
def c7s2 : ProcState :=
  match switch_to_processor c7s1 "base" with
  | .ok s => s
  | .error _ => default

/-- State after the third round-trip switch (base → alt again). -/
def c7s3 : ProcState :=
  match switch_to_processor c7s2 "alt" with
  | .ok s => s
  | .error _ => default

/-- State reached from the example processor by the switch used in the C9
witness. -/
def c9s1 : ProcState :=
  match switch_to_processor exIncState "alt" with
  | .ok s => s
  | .error _ => default

/-! Helper lemmas about attribute-write tables. -/

theorem eventqLookup_cons (k v x : Nat) (tbl : List (Nat × Nat)) :
    eventqLookup ((k, v) :: tbl) x = if k = x then v else eventqLookup tbl x := by
  by_cases h : k = x <;> simp [eventqLookup, List.find?, h]

theorem setAllZero_not_mem (ds : List Nat) (tbl : List (Nat × Nat)) (x : Nat) (h : x ∉ ds) :
    eventqLookup (setAllZero ds tbl) x = eventqLookup tbl x := by
  induction ds generalizing tbl with
  | nil => rfl
  | cons d ds ih =>
      simp only [setAllZero]
      rw [ih _ (fun hx => h (List.mem_cons_of_mem _ hx)), eventqLookup_cons, if_neg]
      intro hdx
      exact h (hdx ▸ List.mem_cons_self _ _)

theorem setAllZero_mem (ds : List Nat) (tbl : List (Nat × Nat)) (x : Nat) (h : x ∈ ds) :
    eventqLookup (setAllZero ds tbl) x = 0 := by
  induction ds generalizing tbl with
  | nil => cases h
  | cons d ds ih =>
      simp only [setAllZero]
      by_cases hx : x ∈ ds
      · exact ih _ hx
      · have hdx : d = x := by
          rcases List.mem_cons.mp h with h1 | h2
          · exact h1.symm
          · exact absurd h2 hx
        rw [setAllZero_not_mem _ _ _ hx, eventqLookup_cons, if_pos hdx]

theorem assignKvm_untouched (cs : List Core) (i0 : Nat) (tbl : List (Nat × Nat)) (x : Nat)
    (h1 : ∀ c ∈ cs, x ≠ c.simObjId) (h2 : ∀ c ∈ cs, x ∉ c.descIds) :
    eventqLookup (assignKvm i0 cs tbl) x = eventqLookup tbl x := by
  induction cs generalizing i0 tbl with
  | nil => rfl
  | cons c rest ih =>
      have hx1 : x ≠ c.simObjId := h1 c (List.mem_cons_self _ _)
      have hx2 : x ∉ c.descIds := h2 c (List.mem_cons_self _ _)
      simp only [assignKvm]
      rw [ih (i0 + 1) _ (fun c' hc' => h1 c' (List.mem_cons_of_mem _ hc'))
            (fun c' hc' => h2 c' (List.mem_cons_of_mem _ hc')),
          eventqLookup_cons, if_neg (fun h => hx1 h.symm), setAllZero_not_mem _ _ _ hx2]

theorem assignKvm_zero (cs : List Core) (i0 : Nat) (tbl : List (Nat × Nat)) (x : Nat)
    (h1 : ∀ c ∈ cs, x ≠ c.simObjId) (h0 : eventqLookup tbl x = 0) :
    eventqLookup (assignKvm i0 cs tbl) x = 0 := by
  induction cs generalizing i0 tbl with
  | nil => exact h0
  | cons c rest ih =>
      simp only [assignKvm]
      apply ih (i0 + 1) _ (fun c' hc' => h1 c' (List.mem_cons_of_mem _ hc'))
      rw [eventqLookup_cons, if_neg (fun h => h1 c (List.mem_cons_self _ _) h.symm)]
      by_cases hx : x ∈ c.descIds
      · exact setAllZero_mem _ _ _ hx
      · rw [setAllZero_not_mem _ _ _ hx]
        exact h0

theorem assignKvm_get (cs : List Core) (i0 : Nat) (tbl : List (Nat × Nat))
    (hnodup : (cs.map Core.simObjId).Nodup)
    (hnd : ∀ a ∈ cs, ∀ b ∈ cs, a.simObjId ∉ b.descIds) :
    ∀ j (hj : j < cs.length),
      eventqLookup (assignKvm i0 cs tbl) (cs.get ⟨j, hj⟩).simObjId = i0 + j + 1 := by
  induction cs generalizing i0 tbl with
  | nil =>
      intro j hj
      cases hj
  | cons c rest ih =>
      intro j hj
      simp only [List.map_cons, List.nodup_cons] at hnodup
      cases j with
      | zero =>
          simp only [assignKvm, List.get]
          rw [assignKvm_untouched]
          · rw [eventqLookup_cons, if_pos rfl]
          · intro c' hc' h
            exact hnodup.1 (h ▸ List.mem_map_of_mem Core.simObjId hc')
          · intro c' hc'
            exact hnd c (List.mem_cons_self _ _) c' (List.mem_cons_of_mem _ hc')
      | succ j' =>
          simp only [assignKvm, List.get]
          rw [ih (i0 + 1) _ hnodup.2
                (fun a ha b hb =>
                  hnd a (List.mem_cons_of_mem _ ha) b (List.mem_cons_of_mem _ hb))
                j' (Nat.lt_of_succ_lt_succ hj)]
          omega

theorem lookupFlag_eq_of (l : List (Core × Bool)) (cur : List Core)
    (hall : ∀ p ∈ l, p.2 = decide (¬ p.1 ∈ cur)) (c : Core) (hmem : ∃ v, (c, v) ∈ l) :
    lookupFlag l c = some (decide (¬ c ∈ cur)) := by
  induction l with
  | nil =>
      rcases hmem with ⟨v, hv⟩
      cases hv
  | cons p rest ih =>
      by_cases hpc : p.1 = c
      · have hfind : lookupFlag (p :: rest) c = some p.2 := by
          simp [lookupFlag, List.find?, hpc]
        rw [hfind, hall p (List.mem_cons_self _ _), hpc]
      · have hfind : lookupFlag (p :: rest) c = lookupFlag rest c := by
          simp [lookupFlag, List.find?, hpc]
        rw [hfind]
        apply ih (fun q hq => hall q (List.mem_cons_of_mem _ hq))
        rcases hmem with ⟨v, hv⟩
        rcases List.mem_cons.mp hv with h1 | h2
        · exact absurd (congrArg Prod.fst h1).symm hpc
        · exact ⟨v, h2⟩

theorem setFlagsList_val (cur : List Core) (cs : List Core) (acc : List (Core × Bool))
    (hacc : ∀ p ∈ acc, p.2 = decide (¬ p.1 ∈ cur)) :
    ∀ p ∈ setFlagsList cur cs acc, p.2 = decide (¬ p.1 ∈ cur) := by
  induction cs generalizing acc with
  | nil => exact hacc
  | cons c rest ih =>
      simp only [setFlagsList]
      apply ih
      intro p hp
      rcases List.mem_cons.mp hp with h1 | h2
      · rw [h1]
      · exact hacc p h2

theorem setFlagsList_key (cur : List Core) (cs : List Core) (acc : List (Core × Bool))
    (c : Core) (h : c ∈ cs ∨ ∃ v, (c, v) ∈ acc) :
    ∃ v, (c, v) ∈ setFlagsList cur cs acc := by
  induction cs generalizing acc with
  | nil =>
      rcases h with h1 | h2
      · cases h1
      · exact h2
  | cons c' rest ih =>
      simp only [setFlagsList]
      apply ih
      rcases h with h1 | h2
      · rcases List.mem_cons.mp h1 with he | ht
        · right
          subst he
          exact ⟨_, List.mem_cons_self _ _⟩
        · left
          exact ht
      · right
        rcases h2 with ⟨v, hv⟩
        exact ⟨v, List.mem_cons_of_mem _ hv⟩

theorem setFlags_val (cur : List Core) (sw : List (String × List Core))
    (acc : List (Core × Bool)) (hacc : ∀ p ∈ acc, p.2 = decide (¬ p.1 ∈ cur)) :
    ∀ p ∈ setFlags cur sw acc, p.2 = decide (¬ p.1 ∈ cur) := by
  induction sw generalizing acc with
  | nil => exact hacc
  | cons q rest ih =>
      simp only [setFlags]
      exact ih _ (setFlagsList_val cur q.2 acc hacc)

theorem setFlags_key (cur : List Core) (sw : List (String × List Core))
    (acc : List (Core × Bool)) (c : Core)
    (h : c ∈ allCoresList sw ∨ ∃ v, (c, v) ∈ acc) :
    ∃ v, (c, v) ∈ setFlags cur sw acc := by
  induction sw generalizing acc with
  | nil =>
      rcases h with h1 | h2
      · simp [allCoresList] at h1
      · exact h2
  | cons q rest ih =>
      simp only [setFlags]
      apply ih
      rcases h with h1 | h2
      · have hsplit : c ∈ q.2 ∨ c ∈ allCoresList rest := by
          simpa [allCoresList] using h1
        rcases hsplit with hq | hr
        · right
          exact setFlagsList_key cur q.2 acc c (Or.inl hq)
        · left
          exact hr
      · right
        exact setFlagsList_key cur q.2 acc c (Or.inr h2)

theorem setFlags_lookup (cur : List Core) (sw : List (String × List Core)) (c : Core)
    (hc : c ∈ allCoresList sw) :
    lookupFlag (setFlags cur sw []) c = some (decide (¬ c ∈ cur)) := by
  apply lookupFlag_eq_of
  · exact setFlags_val cur sw [] (fun p hp => absurd hp (List.not_mem_nil p))
  · exact setFlags_key cur sw [] c (Or.inl hc)

/-! Inversion lemmas for the modelled operations. -/

theorem initProcessor_ok (sw : List (String × List Core)) (starting : String) (s : ProcState)
    (h : initProcessor sw starting = .ok s) :
    lookupC sw starting = some s.currentCores ∧
    ((s.currentCores.map Core.isa).dedup).length = 1 ∧
    s.switchableCores = sw ∧
    s.switchedOut = setFlags s.currentCores sw [] ∧
    s.prepareKvm = (allCoresList sw).any (fun c => c.isKvm) ∧
    s.incorporated = false ∧
    s.eventq = [] := by
  unfold initProcessor at h
  split at h
  · cases h
  · rename_i cur hl
    split at h
    · rename_i hd
      injection h with h'
      subst h'
      exact ⟨hl, hd, rfl, rfl, rfl, rfl, rfl⟩
    · cases h

theorem incorporate_fields (s : ProcState) :
    (incorporate_processor s).switchableCores = s.switchableCores ∧
    (incorporate_processor s).currentCores = s.currentCores ∧
    (incorporate_processor s).switchedOut = s.switchedOut ∧
    (incorporate_processor s).incorporated = true := by
  unfold incorporate_processor
  by_cases h : s.prepareKvm = true <;> simp [h]

theorem incorporate_eventq (s : ProcState) :
    (incorporate_processor s).eventq =
      if s.prepareKvm then
        assignKvm 0 ((allCoresList s.switchableCores).filter (fun c => c.isKvm)) s.eventq
      else s.eventq := by
  unfold incorporate_processor
  by_cases h : s.prepareKvm = true <;> simp [h]

theorem switch_ok (s : ProcState) (key : String) (s' : ProcState)
    (h : switch_to_processor s key = .ok s') :
    s.incorporated = true ∧
    lookupC s.switchableCores key = some s'.currentCores ∧
    s'.currentCores ≠ s.currentCores ∧
    s'.currentCores.length = s.currentCores.length ∧
    s'.switchableCores = s.switchableCores ∧
    s'.switchedOut = s.switchedOut ∧
    s'.incorporated = s.incorporated ∧
    s'.eventq = s.eventq := by
  unfold switch_to_processor at h
  by_cases hi : s.incorporated = false
  · rw [if_pos hi] at h
    cases h
  · rw [if_neg hi] at h
    have hi' : s.incorporated = true := by
      cases hb : s.incorporated with
      | false => exact absurd hb hi
      | true => rfl
    split at h
    · cases h
    · rename_i toSwitch hl
      split at h
      · cases h
      · rename_i he
        split at h
        · cases h
        · rename_i hlen
          injection h with h'
          subst h'
          exact ⟨hi', hl, he, not_not.mp hlen, rfl, rfl, rfl, rfl⟩

/-- Success characterization of `switch_to_processor`: when all four source
checks pass, the call returns the state with only `_current_cores` replaced. -/
theorem switch_to_processor_success (s : ProcState) (key : String) (toSwitch : List Core)
    (hinc : s.incorporated = true)
    (hl : lookupC s.switchableCores key = some toSwitch)
    (hne : toSwitch ≠ s.currentCores)
    (hlen : toSwitch.length = s.currentCores.length) :
    switch_to_processor s key = .ok { s with currentCores := toSwitch } := by
  unfold switch_to_processor
  simp only [hinc, hl]
  rw [if_neg (by simp)]
  rw [if_neg hne, if_neg (not_not_intro hlen)]

/-- Mapping over an `Except` value cannot introduce an error. -/
theorem Except_map_error {α β ε : Type} (f : α → β) (x : Except ε α) (e : ε)
    (h : x.map f = .error e) : x = .error e := by
  cases x with
  | error e' =>
      simp only [Except.map] at h
      rw [Except.error.inj h]
  | ok a =>
      simp only [Except.map] at h
      cases h

/-- Possible error messages of `initProcessor`. -/
theorem initProcessor_error (sw : List (String × List Core)) (starting : String) (e : String)
    (h : initProcessor sw starting = .error e) :
    e = ("Key " ++ starting ++ " cannot be found in the switchable_processors dictionary.") ∨
    e = "assert len(set of isa over current cores) == 1" := by
  unfold initProcessor at h
  split at h
  · injection h with h'
    exact Or.inl h'.symm
  · split at h
    · cases h
    · injection h with h'
      exact Or.inr h'.symm

/-! Claim theorems. -/

/-- Counterexample to C1: in the incorporated two-configuration processor
`exIncState` (active "base" = [coreA0], inactive "alt" = [coreB0]),
`switch_to_processor "alt"` succeeds and updates the active-configuration
pointer to [coreB0], yet the newly active handle coreB0 still has
`switchedOut = true` and the previously active coreA0 still has
`switchedOut = false`, contradicting the claim that the flags are updated:
the source never calls `set_switched_out` in `switch_to_processor`. -/
theorem claim1_counterexample :
    (switch_to_processor exIncState "alt").map
        (fun t => (t.currentCores, lookupFlag t.switchedOut coreB0,
                   lookupFlag t.switchedOut coreA0))
      = .ok ([coreB0], some true, some false) := rfl

/-- C1 (amended): after a successful `switch_to_processor(targetName)` call the
active-configuration pointer is updated to the target configuration, and every
handle's `switchedOut` flag is left exactly as it was (the source does not
touch the flags during a switch). -/
theorem claim1_theorem (s : ProcState) (key : String) (s' : ProcState)
    (h : switch_to_processor s key = .ok s') :
    lookupC s.switchableCores key = some s'.currentCores ∧
    s'.switchedOut = s.switchedOut :=
  ⟨(switch_ok s key s' h).2.1, (switch_ok s key s' h).2.2.2.2.2.1⟩

/-- Witness for C1 (amended) at the concrete incorporated processor. -/
theorem claim1_witness :
    lookupC exIncState.switchableCores "alt" = some exAltState.currentCores ∧
    exAltState.switchedOut = exIncState.switchedOut :=
  claim1_theorem exIncState "alt" exAltState rfl

/-- Counterexample to C2: `badSw` has configuration sets of slot counts 1 and
2, and the set of isa values across all handles is {"X86", "ARM"} (size 2),
so the claim says construction must fail; yet construction starting at "a"
succeeds, because the source checks neither slot counts nor the isa values of
handles outside the starting configuration. -/
theorem claim2_counterexample : (initProcessor badSw "a").isOk = true := rfl

/-- C2 (amended): construction succeeds iff the named starting configuration
is present in the registry and the set of `isa` values across the handles of
the starting configuration alone has size exactly 1.  Slot counts across
configuration sets and the isa values of the other configurations are not
checked at construction. -/
theorem claim2_theorem (sw : List (String × List Core)) (starting : String) :
    (initProcessor sw starting).isOk = true ↔
      ∃ cur, lookupC sw starting = some cur ∧ ((cur.map Core.isa).dedup).length = 1 := by
  constructor
  · intro h
    cases hres : initProcessor sw starting with
    | error e =>
        rw [hres] at h
        simp [Except.isOk, Except.toBool] at h
    | ok s =>
        obtain ⟨hl, hd, -⟩ := initProcessor_ok sw starting s hres
        exact ⟨s.currentCores, hl, hd⟩
  · rintro ⟨cur, hl, hd⟩
    unfold initProcessor
    simp only [hl]
    rw [if_pos hd]
    rfl

/-- Witness for C2 (amended): the example registry satisfies the right-hand
side and indeed constructs. -/
theorem claim2_witness : (initProcessor exSw "base").isOk = true :=
  (claim2_theorem exSw "base").mpr ⟨[coreA0], rfl, by decide⟩

/-- C3: `switch_to_processor` fails with a usage error whenever incorporation
has not happened, or the target key is unknown, or the target key names the
currently active configuration.  The error is raised before any mutation in
the source, so returning `Except.error` models the state being left
unchanged. -/
theorem claim3_theorem (s : ProcState) (key : String)
    (h : s.incorporated = false ∨ lookupC s.switchableCores key = none ∨
         lookupC s.switchableCores key = some s.currentCores) :
    ∃ msg, switch_to_processor s key = .error msg := by
  cases hres : switch_to_processor s key with
  | error msg => exact ⟨msg, rfl⟩
  | ok s' =>
      exfalso
      obtain ⟨hi, hl, hne, -, -, -, -, -⟩ := switch_ok s key s' hres
      rcases h with h1 | h2 | h3
      · rw [hi] at h1
        cases h1
      · rw [h2] at hl
        cases hl
      · rw [h3] at hl
        injection hl with hl'
        exact hne hl'.symm

/-- Witness for C3: switching the incorporated example processor to its
already-active configuration "base" fails. -/
theorem claim3_witness : ∃ msg, switch_to_processor exIncState "base" = .error msg :=
  claim3_theorem exIncState "base" (Or.inr (Or.inr rfl))

/-- C6: after `incorporate()` on a validly constructed processor, every handle
in the active configuration has `switchedOut = false` and every handle not in
the active configuration has `switchedOut = true`.  The flags are set by the
constructor's `set_switched_out` loop and incorporation leaves them alone. -/
theorem claim6_theorem (sw : List (String × List Core)) (starting : String) (s : ProcState)
    (hinit : initProcessor sw starting = .ok s) :
    ∀ c ∈ allCoresList sw,
      (c ∈ (incorporate_processor s).currentCores →
        lookupFlag (incorporate_processor s).switchedOut c = some false) ∧
      (c ∉ (incorporate_processor s).currentCores →
        lookupFlag (incorporate_processor s).switchedOut c = some true) := by
  intro c hc
  obtain ⟨-, -, -, hflags, -, -, -⟩ := initProcessor_ok sw starting s hinit
  obtain ⟨-, hcur, hout, -⟩ := incorporate_fields s
  rw [hcur, hout, hflags]
  have hlook := setFlags_lookup s.currentCores sw c hc
  constructor
  · intro hmem
    rw [hlook]
    simp [hmem]
  · intro hmem
    rw [hlook]
    simp [hmem]

/-- Witness for C6: in the incorporated example processor the inactive handle
coreB0 is switched out. -/
theorem claim6_witness :
    lookupFlag (incorporate_processor exBaseState).switchedOut coreB0 = some true :=
  (claim6_theorem exSw "base" exBaseState rfl coreB0 (by decide)).2 (by decide)

/-- C7: a successful `switchTo(X); switchTo(Y); switchTo(X)` round trip ends
with the active-configuration pointer back on configuration X, and with every
handle's `switchedOut` flag equal to its original value (the switch protocol
never writes those flags, so the original pattern is preserved throughout). -/
theorem claim7_theorem (s s1 s2 s3 : ProcState) (X Y : String)
    (h1 : switch_to_processor s X = .ok s1)
    (h2 : switch_to_processor s1 Y = .ok s2)
    (h3 : switch_to_processor s2 X = .ok s3) :
    lookupC s.switchableCores X = some s3.currentCores ∧
    s3.currentCores = s1.currentCores ∧
    s3.switchedOut = s.switchedOut := by
  obtain ⟨-, hl1, -, -, hsw1, hout1, -, -⟩ := switch_ok s X s1 h1
  obtain ⟨-, -, -, -, hsw2, hout2, -, -⟩ := switch_ok s1 Y s2 h2
  obtain ⟨-, hl3, -, -, -, hout3, -, -⟩ := switch_ok s2 X s3 h3
  rw [hsw2, hsw1] at hl3
  exact ⟨hl3, Option.some_injective _ (hl3.symm.trans hl1), by rw [hout3, hout2, hout1]⟩

/-- Witness for C7 on the concrete incorporated processor, with X = "alt" and
Y = "base". -/
theorem claim7_witness :
    lookupC exIncState.switchableCores "alt" = some c7s3.currentCores ∧
    c7s3.currentCores = c7s1.currentCores ∧
    c7s3.switchedOut = exIncState.switchedOut :=
  claim7_theorem exIncState c7s1 c7s2 c7s3 "alt" "base" rfl rfl rfl

/-- C9: `get_num_cores` always returns the length of the currently active core
list, and a successful `switch_to_processor` leaves `get_num_cores` unchanged
(the length-equality precondition guarantees it). -/
theorem claim9_theorem (s : ProcState) :
    get_num_cores s = (get_cores s).length ∧
    ∀ key s', switch_to_processor s key = .ok s' → get_num_cores s' = get_num_cores s := by
  refine ⟨rfl, ?_⟩
  intro key s' h
  exact (switch_ok s key s' h).2.2.2.1

/-- Witness for C9: the concrete switch from "base" to "alt" preserves the
active core count. -/
theorem claim9_witness :
    get_num_cores exIncState = (get_cores exIncState).length ∧
    get_num_cores c9s1 = get_num_cores exIncState :=
  ⟨(claim9_theorem exIncState).1, (claim9_theorem exIncState).2 "alt" c9s1 rfl⟩

/-- C8: on an incorporated two-configuration processor whose
`_current_is_start` flag agrees with the active configuration, each `switch()`
call switches to the configuration that is not currently active, and two
consecutive `switch()` calls restore both the original active configuration
and the original flag.  This is the `switch` method shared verbatim by
`SimpleSwitchableHetProcessor` and `CoreSwitchableHetProcessor`. -/
theorem claim8_theorem (p : ToggleState) (a b : List Core)
    (hinc : p.base.incorporated = true)
    (ha : lookupC p.base.switchableCores "start" = some a)
    (hb : lookupC p.base.switchableCores "switch" = some b)
    (hne : a ≠ b) (hlen : a.length = b.length)
    (hsync : (p.currentIsStart = true ∧ p.base.currentCores = a) ∨
             (p.currentIsStart = false ∧ p.base.currentCores = b)) :
    ∃ p1 p2, toggleSwitch p = .ok p1 ∧ toggleSwitch p1 = .ok p2 ∧
      p1.base.currentCores ≠ p.base.currentCores ∧
      p2.base.currentCores = p.base.currentCores ∧
      p2.currentIsStart = p.currentIsStart := by
  rcases hsync with ⟨hf, hc⟩ | ⟨hf, hc⟩
  · have h1 : switch_to_processor p.base "switch" = .ok { p.base with currentCores := b } := by
      apply switch_to_processor_success p.base "switch" b hinc hb
      · rw [hc]
        intro h
        exact hne h.symm
      · rw [hc]
        exact hlen.symm
    have h2 := switch_to_processor_success { p.base with currentCores := b } "start" a
      hinc ha hne hlen
    refine ⟨{ base := { p.base with currentCores := b }, currentIsStart := !p.currentIsStart },
            { base := { { p.base with currentCores := b } with currentCores := a },
              currentIsStart := !(!p.currentIsStart) },
            ?_, ?_, ?_, ?_, ?_⟩
    · unfold toggleSwitch
      rw [hf]
      simp [h1]
    · unfold toggleSwitch
      rw [hf]
      simp [h2]
    · show b ≠ p.base.currentCores
      rw [hc]
      intro h
      exact hne h.symm
    · show a = p.base.currentCores
      rw [hc]
    · show (!(!p.currentIsStart)) = p.currentIsStart
      rw [Bool.not_not]
  · have h1 : switch_to_processor p.base "start" = .ok { p.base with currentCores := a } := by
      apply switch_to_processor_success p.base "start" a hinc ha
      · rw [hc]
        exact hne
      · rw [hc]
        exact hlen
    have h2 := switch_to_processor_success { p.base with currentCores := a } "switch" b
      hinc hb (fun h => hne h.symm) hlen.symm
    refine ⟨{ base := { p.base with currentCores := a }, currentIsStart := !p.currentIsStart },
            { base := { { p.base with currentCores := a } with currentCores := b },
              currentIsStart := !(!p.currentIsStart) },
            ?_, ?_, ?_, ?_, ?_⟩
    · unfold toggleSwitch
      rw [hf]
      simp [h1]
    · unfold toggleSwitch
      rw [hf]
      simp [h2]
    · show a ≠ p.base.currentCores
      rw [hc]
      exact hne
    · show b = p.base.currentCores
      rw [hc]
    · show (!(!p.currentIsStart)) = p.currentIsStart
      rw [Bool.not_not]

/-- Witness for C8: toggling the incorporated two-configuration example
processor twice restores the "start" configuration and the flag. -/
theorem claim8_witness :
    ∃ p1 p2, toggleSwitch exTState = .ok p1 ∧ toggleSwitch p1 = .ok p2 ∧
      p1.base.currentCores ≠ exTState.base.currentCores ∧
      p2.base.currentCores = exTState.base.currentCores ∧
      p2.currentIsStart = exTState.currentIsStart :=
  claim8_theorem exTState [coreS0] [coreW0] rfl rfl rfl (by decide) rfl
    (Or.inl ⟨rfl, rfl⟩)

/-- C10: the constructor of `SimpleSwitchableHetProcessor` raises the
core-count assertion error exactly when some `core_types` entry has a core
count ≤ 0; the check is the first statement of the constructor, before any
core is created.  With every count positive the constructor proceeds past the
check (any later failure carries a different error). -/
theorem claim10_theorem (ct : List (CPUType × CPUType × Int)) (isa : String) :
    simpleInit ct isa = .error countErrMsg ↔ ∃ c ∈ ct, c.2.2 ≤ 0 := by
  constructor
  · intro h
    unfold simpleInit at h
    by_cases hany : ct.any (fun c => decide (c.2.2 ≤ 0)) = true
    · rcases List.any_eq_true.mp hany with ⟨c, hc, hdec⟩
      exact ⟨c, hc, of_decide_eq_true hdec⟩
    · exfalso
      rw [if_neg hany] at h
      cases ct with
      | nil =>
          exact absurd (Except.error.inj h) (by decide)
      | cons c0 rest =>
          rcases initProcessor_error _ _ _ (Except_map_error _ _ _ h) with he | he <;>
            exact absurd he (by decide)
  · rintro ⟨c, hc, hle⟩
    unfold simpleInit
    rw [if_pos (List.any_eq_true.mpr ⟨c, hc, decide_eq_true hle⟩)]

/-- Witness for C10: a single entry with count 0 triggers the assertion, and
an all-positive list does not produce the count error. -/
theorem claim10_witness :
    simpleInit [(CPUType.timing, CPUType.o3, 0)] "X86" = .error countErrMsg :=
  (claim10_theorem [(CPUType.timing, CPUType.o3, 0)] "X86").mpr
    ⟨(CPUType.timing, CPUType.o3, 0), List.mem_singleton.mpr rfl, by decide⟩

/-- Event-queue outcome of incorporation: the j-th KVM core (in overall
iteration order over all configurations) ends with index j+1 on its own
simobject, and any object that is not some KVM core's simobject ends on the
default queue 0.  The hypotheses record facts guaranteed by python object
identity: distinct handles own distinct simobjects, and no handle's simobject
sits inside another handle's descendant subtree. -/
theorem incorporate_eventq_spec (sw : List (String × List Core)) (starting : String)
    (s : ProcState) (hinit : initProcessor sw starting = .ok s)
    (hnodup : ((allCoresList sw).map Core.simObjId).Nodup)
    (hnd : ∀ a ∈ allCoresList sw, ∀ b ∈ allCoresList sw, a.simObjId ∉ b.descIds) :
    (∀ j (hj : j < ((allCoresList sw).filter (fun c => c.isKvm)).length),
        eventqLookup (incorporate_processor s).eventq
          (((allCoresList sw).filter (fun c => c.isKvm)).get ⟨j, hj⟩).simObjId = j + 1) ∧
    (∀ x : Nat, (∀ k ∈ (allCoresList sw).filter (fun c => c.isKvm), x ≠ k.simObjId) →
        eventqLookup (incorporate_processor s).eventq x = 0) := by
  obtain ⟨-, -, hsw, -, hprep, -, hq⟩ := initProcessor_ok sw starting s hinit
  have hev := incorporate_eventq s
  rw [hsw, hq] at hev
  by_cases hany : s.prepareKvm = true
  · rw [hany, if_pos rfl] at hev
    constructor
    · intro j hj
      rw [hev]
      have hsub : List.Sublist
          (((allCoresList sw).filter (fun c => c.isKvm)).map Core.simObjId)
          ((allCoresList sw).map Core.simObjId) :=
        List.Sublist.map _ (List.filter_sublist _)
      have hnodup' := List.Nodup.sublist hsub hnodup
      have hnd' : ∀ a ∈ (allCoresList sw).filter (fun c => c.isKvm),
          ∀ b ∈ (allCoresList sw).filter (fun c => c.isKvm), a.simObjId ∉ b.descIds :=
        fun a ha b hb => hnd a (List.mem_of_mem_filter ha) b (List.mem_of_mem_filter hb)
      simpa using assignKvm_get _ 0 [] hnodup' hnd' j hj
    · intro x hx
      rw [hev]
      exact assignKvm_zero _ 0 [] x hx rfl
  · rw [if_neg hany] at hev
    have hanyf : (allCoresList sw).any (fun c => c.isKvm) = false := by
      rw [← hprep]
      cases hb : s.prepareKvm with
      | false => rfl
      | true => exact absurd hb hany
    have hfilter : (allCoresList sw).filter (fun c => c.isKvm) = [] := by
      rw [List.filter_eq_nil_iff]
      intro c hc
      exact (List.any_eq_false.mp hanyf) c hc
    constructor
    · intro j hj
      exfalso
      have hj' := hj
      rw [hfilter] at hj'
      simp at hj'
    · intro x hx
      rw [hev]
      rfl

/-- Counterexample to C4: in the mixed processor `exKState` the KVM handle
coreK1 owns the sub-object 5 (a descendant of its simobject 3).  After
incorporation the sub-object is on event queue 0 — the shared default used by
all non-accelerated models — while the handle's own simobject is on its
private queue 1.  The claim that every owned sub-object is assigned the
handle's own private timeline index, distinct from the shared default, is
therefore false: the source resets descendants to queue 0 and gives only the
core's own simobject a private queue. -/
theorem claim4_counterexample :
    eventqLookup exKState.eventq 5 = 0 ∧ eventqLookup exKState.eventq 3 = 1 :=
  ⟨rfl, rfl⟩

/-- C4 (amended): during incorporation each accelerated (KVM) handle's own
simobject is assigned that handle's private timeline index (position in the
KVM iteration order plus one), while every simulated sub-object it owns is
assigned the shared default timeline index 0. -/
theorem claim4_theorem (sw : List (String × List Core)) (starting : String)
    (s : ProcState) (hinit : initProcessor sw starting = .ok s)
    (hnodup : ((allCoresList sw).map Core.simObjId).Nodup)
    (hnd : ∀ a ∈ allCoresList sw, ∀ b ∈ allCoresList sw, a.simObjId ∉ b.descIds) :
    (∀ j (hj : j < ((allCoresList sw).filter (fun c => c.isKvm)).length),
        eventqLookup (incorporate_processor s).eventq
          (((allCoresList sw).filter (fun c => c.isKvm)).get ⟨j, hj⟩).simObjId = j + 1) ∧
    (∀ c ∈ allCoresList sw, c.isKvm = true → ∀ d ∈ c.descIds,
        eventqLookup (incorporate_processor s).eventq d = 0) := by
  obtain ⟨h1, h2⟩ := incorporate_eventq_spec sw starting s hinit hnodup hnd
  refine ⟨h1, ?_⟩
  intro c hc hkvm d hd
  apply h2
  intro k hk hdk
  exact hnd k (List.mem_of_mem_filter hk) c hc (hdk ▸ hd)

/-- Witness for C4 (amended): in the concrete mixed processor the KVM core's
descendant sub-object 5 ends on the shared default queue 0. -/
theorem claim4_witness :
    eventqLookup (incorporate_processor exKBase).eventq 5 = 0 :=
  (claim4_theorem exKSw "start" exKBase rfl (by decide) (by decide)).2
    coreK1 (by decide) rfl 5 (by decide)

/-- C5: after incorporation, every accelerated (KVM) handle across all
configurations has a non-zero timeline index, two distinct accelerated
handles always have distinct indices, and every non-accelerated handle is on
the shared default index 0. -/
theorem claim5_theorem (sw : List (String × List Core)) (starting : String)
    (s : ProcState) (hinit : initProcessor sw starting = .ok s)
    (hnodup : ((allCoresList sw).map Core.simObjId).Nodup)
    (hnd : ∀ a ∈ allCoresList sw, ∀ b ∈ allCoresList sw, a.simObjId ∉ b.descIds) :
    (∀ c ∈ allCoresList sw, c.isKvm = true →
        eventqLookup (incorporate_processor s).eventq c.simObjId ≠ 0) ∧
    (∀ c ∈ allCoresList sw, ∀ c' ∈ allCoresList sw, c.isKvm = true → c'.isKvm = true →
        c ≠ c' →
        eventqLookup (incorporate_processor s).eventq c.simObjId ≠
          eventqLookup (incorporate_processor s).eventq c'.simObjId) ∧
    (∀ c ∈ allCoresList sw, c.isKvm = false →
        eventqLookup (incorporate_processor s).eventq c.simObjId = 0) := by
  obtain ⟨h1, h2⟩ := incorporate_eventq_spec sw starting s hinit hnodup hnd
  have hmemget : ∀ c ∈ allCoresList sw, c.isKvm = true →
      ∃ n : Fin (((allCoresList sw).filter (fun c => c.isKvm)).length),
        ((allCoresList sw).filter (fun c => c.isKvm)).get n = c := by
    intro c hc hkvm
    exact List.get_of_mem (List.mem_filter.mpr ⟨hc, hkvm⟩)
  refine ⟨?_, ?_, ?_⟩
  · intro c hc hkvm
    obtain ⟨n, hn⟩ := hmemget c hc hkvm
    rw [← hn, h1 n.1 n.2]
    exact Nat.succ_ne_zero n.1
  · intro c hc c' hc' hkvm hkvm' hcc
    obtain ⟨n, hn⟩ := hmemget c hc hkvm
    obtain ⟨n', hn'⟩ := hmemget c' hc' hkvm'
    rw [← hn, ← hn', h1 n.1 n.2, h1 n'.1 n'.2]
    intro hEq
    apply hcc
    rw [← hn, ← hn']
    exact congrArg _ (Fin.ext (Nat.succ_injective hEq))
  · intro c hc hnk
    apply h2
    intro k hk hEq
    have hck : c = k :=
      List.inj_on_of_nodup_map hnodup hc (List.mem_of_mem_filter hk) hEq
    have hkk : k.isKvm = true := (List.mem_filter.mp hk).2
    rw [hck] at hnk
    rw [hnk] at hkk
    cases hkk

/-- Witness for C5: in the concrete mixed processor the non-accelerated
handle coreT1 stays on the default queue 0. -/
theorem claim5_witness :
    eventqLookup (incorporate_processor exKBase).eventq coreT1.simObjId = 0 :=
  (claim5_theorem exKSw "start" exKBase rfl (by decide) (by decide)).2.2
    coreT1 (by decide) rfl


end HetProc
